import Mathlib

/-!
# lazyCommit: the `commit` command (`cmd/commit.go`)

A shallow embedding of the five functions of `cmd/commit.go`
(`getAPIKey`, `gitDiff`, `getCommitMessages`, `commitChanges` and the `Run`
closure of `commitCmd`) together with the properties of its specification.

Everything outside the file (operating system, standard library, `yaml`,
`promptui`, the remote service) is a field of `World`; every observable action
of the program is an `Event` appended to the trace of an `Exec`.
-/

namespace LazyCommit

/-! ## Go values -/

/-- The dynamic values `encoding/json` stores into an `interface{}`:
`nil`, `bool`, `float64`, `string`, `[]interface{}` and
`map[string]interface{}`.  The payload of a number is never inspected by the
program; it is kept as the bit pattern of the `float64`. -/
inductive GoValue where
  | null
  | bool (b : Bool)
  | float64 (bits : Nat)
  | string (s : String)
  | array (xs : List GoValue)
  | object (fields : List (String × GoValue))

/-- The dynamic type name Go prints in an interface-conversion failure. -/
def GoValue.typeName : GoValue → String
  | .null => "nil"
  | .bool _ => "bool"
  | .float64 _ => "float64"
  | .string _ => "string"
  | .array _ => "[]interface \x7b\x7d"
  | .object _ => "map[string]interface \x7b\x7d"

/-- The index expression `m[key]` on a `map[string]interface{}`: the stored
value, or the zero value `nil` when the key is absent (also on a nil map,
which is represented by the empty list). -/
def mapIndex (m : List (String × GoValue)) (key : String) : GoValue :=
  match m.lookup key with
  | some v => v
  | none => GoValue.null

/-- The index expression `m[key]` on a `map[string]string`: the stored string,
or the zero value `""` when the key is absent. -/
def stringMapIndex (m : List (String × String)) (key : String) : String :=
  match m.lookup key with
  | some v => v
  | none => ""

/-- The conversion `string(b)` of a byte slice; a nil slice (`none`) converts
to the empty string. -/
def bytesToString (b : Option String) : String :=
  match b with
  | some s => s
  | none => ""

/-! ## Requests, events and executions -/

/-- The value handed to `json.Marshal` in `getCommitMessages`. -/
structure ChatRequest where
  model : String
  messages : List (String × String)
  max_tokens : Nat
  n : Nat
deriving DecidableEq, Repr

/-- An `*http.Request` as built by `getCommitMessages`. -/
structure Request where
  method : String
  url : String
  body : ChatRequest
  header : List (String × String)
deriving DecidableEq, Repr

/-- What `(*exec.Cmd).CombinedOutput` returns: the byte slice (`none` is the
nil slice) and the error (`none` is the nil error, otherwise its text). -/
structure CmdResult where
  output : Option String
  err : Option String
deriving DecidableEq, Repr

/-- What `promptui.Select.Run` returns: an error text, or the index and the
string of the chosen item. -/
inductive PromptResult where
  | failed (err : String)
  | chosen (index : Nat) (item : String)
deriving DecidableEq, Repr

/-- Observable actions of the program, in the order they happen. -/
inductive Event where
  | println (text : String)
  | httpDo (req : Request)
  | exec (name : String) (args : List String)
  | promptRun (label : String) (items : List String) (result : PromptResult)
deriving DecidableEq, Repr

/-- How a Go function call ends: it returns a value, or a run-time failure
unwinds the goroutine and the process aborts. -/
inductive Outcome (α : Type) where
  | returned (value : α)
  | panicked (reason : String)
deriving DecidableEq, Repr

/-- An execution: the events it performed and how it ended. -/
structure Exec (α : Type) where
  trace : List Event
  outcome : Outcome α
deriving DecidableEq, Repr

/-- An execution that returns `a` without doing anything. -/
def Exec.ret {α : Type} (a : α) : Exec α := ⟨[], Outcome.returned a⟩

/-- Sequencing: `f` runs after `x` returned; an abort of `x` ends the whole. -/
def Exec.andThen {α β : Type} (x : Exec α) (f : α → Exec β) : Exec β :=
  match x.outcome with
  | Outcome.returned a => ⟨x.trace ++ (f a).trace, (f a).outcome⟩
  | Outcome.panicked r => ⟨x.trace, Outcome.panicked r⟩

instance : Monad Exec where
  pure := Exec.ret
  bind := Exec.andThen

/-- Performing one event. -/
def emit (e : Event) : Exec Unit := ⟨[e], Outcome.returned ()⟩

/-- The call `fmt.Println(a, b, ...)`, with the operands already formatted
and joined by single spaces. -/
def println (text : String) : Exec Unit := emit (Event.println text)

/-- Lifting the outcome of a pure computation. -/
def liftOutcome {α : Type} (o : Outcome α) : Exec α := ⟨[], o⟩

/-! ## The environment -/

/-- Everything the program asks of the outside.  Each field is the function of
the standard library, of a dependency or of the operating system that the
source calls, as a function of the arguments the source passes. -/
structure World where
  /-- The process environment: `none` for a variable that is not set. -/
  lookupEnv : String → Option String
  /-- The result of `os.UserHomeDir`. -/
  userHomeDir : Except String String
  /-- The function `filepath.Join` on two elements. -/
  filepathJoin : String → String → String
  /-- The error of `os.Stat` on a path, `none` when it succeeds. -/
  stat : String → Option String
  /-- The result of `os.ReadFile`. -/
  readFile : String → Except String String
  /-- The result of `yaml.Unmarshal` into a `map[string]string`. -/
  yamlUnmarshal : String → Except String (List (String × String))
  /-- The result of `exec.Command(name, args...).CombinedOutput()`. -/
  combinedOutput : String → List String → CmdResult
  /-- The error of `http.NewRequest`, `none` when it succeeds. -/
  newRequest : String → String → ChatRequest → Option String
  /-- The result of `client.Do` followed by `io.ReadAll` of the body (whose
  error the source discards): a transport error, or the bytes read. -/
  httpDo : Request → Except String String
  /-- The result of `json.Unmarshal` into a `map[string]interface{}`. -/
  jsonUnmarshal : String → Except String (List (String × GoValue))
  /-- The result of `promptui.Select.Run` for a label and a list of items. -/
  promptRun : String → List String → PromptResult

/-- The function `os.Getenv`: the value of the variable, empty when the
variable is not present. -/
def World.getenv (w : World) (key : String) : String :=
  match w.lookupEnv key with
  | some v => v
  | none => ""

/-! ## The program -/

def systemMessage : String :=
  "You are intelligent, helpful and an expert developer, who always gives the correct answer and only does what instructed. You always answer truthfully and don't make things up. (When responding to the following prompt, please make sure to properly style your response using Github Flavored Markdown. Use markdown syntax for things like headings, lists, colored text, code blocks, highlights etc. Make sure not to mention markdown or styling in your actual response.)"

def userMessage : String :=
  "Suggest a precise and informative commit message based on the following diff. Do not use markdown syntax in your response.\n\nThe commit message should have description with a short title that follows emoji commit message format like <emoji> <description>.\n\nExamples:\n- :refactor: Change log format for better visibility\n- :sparkles: Introduce new logging class\n\nDiff: "

/-- Source: `getAPIKey`. -/
def getAPIKey (w : World) : Exec String :=
  let openAIAPIKey := w.getenv "OPENAI_TOKEN"
  if w.getenv "OPENAI_TOKEN" = "" then
    match w.userHomeDir with
    | Except.error err => do
        println ("Error getting home directory: " ++ err)
        pure ""
    | Except.ok homeDir =>
      let configFilePath := w.filepathJoin homeDir ".lazycommit.yaml"
      match w.stat configFilePath with
      | none =>
        match w.readFile configFilePath with
        | Except.error err => do
            println ("Error reading config file: " ++ err)
            pure ""
        | Except.ok configFile =>
          match w.yamlUnmarshal configFile with
          | Except.error err => do
              println ("Error parsing config file: " ++ err)
              pure ""
          | Except.ok config => pure (stringMapIndex config "openai_api_key")
      | some _ => pure openAIAPIKey
  else
    pure openAIAPIKey

/-- Source: `gitDiff`. -/
def gitDiff (w : World) : Exec (Option String) := do
  emit (Event.exec "git" ["diff", "--staged"])
  let r := w.combinedOutput "git" ["diff", "--staged"]
  match r.err with
  | some err => do
      println ("Error running git diff: " ++ err)
      pure none
  | none => pure r.output

/-- The single-value type assertion `v.(map[string]interface{})`, which aborts
the program when `v` holds anything else. -/
def assertMap (v : GoValue) : Outcome (List (String × GoValue)) :=
  match v with
  | GoValue.object m => Outcome.returned m
  | other => Outcome.panicked
      ("interface conversion: interface \x7b\x7d is " ++ other.typeName ++ ", not map[string]interface \x7b\x7d")

/-- The loop `for _, choice := range choices` of `getCommitMessages`, with the
slice `messages` built so far. -/
def rangeChoices : List GoValue → List String → Outcome (List String)
  | [], messages => Outcome.returned messages
  | choice :: rest, messages =>
    match assertMap choice with
    | Outcome.panicked r => Outcome.panicked r
    | Outcome.returned c =>
      match assertMap (mapIndex c "message") with
      | Outcome.panicked r => Outcome.panicked r
      | Outcome.returned m =>
        match mapIndex m "content" with
        | GoValue.string text => rangeChoices rest (messages ++ [text])
        | _ => rangeChoices rest messages

/-- The value `getCommitMessages` serialises as the request body: the fixed
persona, and the fixed task text followed by the diff. -/
def chatRequest (diff : Option String) : ChatRequest :=
  ChatRequest.mk "gpt-3.5-turbo"
    [("system", systemMessage), ("user", userMessage ++ bytesToString diff)] 150 5

/-- The request `getCommitMessages` sends: `http.NewRequest` followed by the
two `req.Header.Set` calls. -/
def completionRequest (diff : Option String) (openAIAPIKey : String) : Request :=
  Request.mk "POST" "https://api.openai.com/v1/chat/completions" (chatRequest diff)
    [("Content-Type", "application/json"), ("Authorization", "Bearer " ++ openAIAPIKey)]

/-- Source: `getCommitMessages`.  The returned `[]string` is a list; a nil
slice is the empty list (the caller only takes its length and its items). -/
def getCommitMessages (w : World) (diff : Option String) (openAIAPIKey : String) :
    Exec (List String) :=
  let url := "https://api.openai.com/v1/chat/completions"
  match w.newRequest "POST" url (chatRequest diff) with
  | some err => do
      println ("Error creating request: " ++ err)
      pure []
  | none =>
    let req := completionRequest diff openAIAPIKey
    do
      emit (Event.httpDo req)
      match w.httpDo req with
      | Except.error err => do
          println ("Error making request: " ++ err)
          pure []
      | Except.ok body =>
        match w.jsonUnmarshal body with
        | Except.error err => do
            println ("Error parsing response: " ++ err)
            pure []
        | Except.ok result =>
          match mapIndex result "choices" with
          | GoValue.array choices => liftOutcome (rangeChoices choices [])
          | _ => do
              println "Error parsing response."
              pure []

/-- Source: `commitChanges`. -/
def commitChanges (w : World) (message : String) : Exec Unit := do
  emit (Event.exec "git" ["commit", "-m", message])
  let r := w.combinedOutput "git" ["commit", "-m", message]
  match r.err with
  | some err => println ("Error committing changes: " ++ err)
  | none => println (bytesToString r.output)

/-- Source: the `Run` function of `commitCmd`. -/
def commitCmd.Run (w : World) : Exec Unit := do
  let apiKey ← getAPIKey w
  if apiKey = "" then
    println "No OpenAI API key found. Either set an OPENAI_TOKEN environment variable or use the lazycommit init command to set it."
  else do
    let diff ← gitDiff w
    match diff with
    | none => pure ()
    | some _ => do
      let commitMessages ← getCommitMessages w diff apiKey
      if commitMessages.length = 0 then
        println "An error occurred while getting commit messages."
      else do
        let r := w.promptRun "Select a commit message" commitMessages
        emit (Event.promptRun "Select a commit message" commitMessages r)
        match r with
        | PromptResult.failed err => println ("Prompt failed: " ++ err)
        | PromptResult.chosen _ selectedMessage => commitChanges w selectedMessage

/-! ## Sample environments -/

/-- An environment in which nothing is configured and every call fails. -/
def World.failing : World :=
  World.mk (fun _ => none) (Except.error "$HOME is not defined")
    (fun dir name => dir ++ "/" ++ name)
    (fun _ => some "no such file or directory")
    (fun _ => Except.error "no such file or directory")
    (fun _ => Except.error "yaml: unmarshal errors")
    (fun _ _ => CmdResult.mk none (some "exit status 1"))
    (fun _ _ _ => none)
    (fun _ => Except.error "dial tcp: connection refused")
    (fun _ => Except.error "unexpected end of JSON input")
    (fun _ _ => PromptResult.failed "^C")

/-- The environment of a run: the variable `OPENAI_TOKEN` as given, a staged
diff, a service that answers `body`, which decodes to `decoded`, and a prompt
that answers `pick`. -/
def World.sample (token : Option String) (decoded : Except String (List (String × GoValue)))
    (pick : PromptResult) (commit : CmdResult) : World :=
  World.mk (fun k => if k = "OPENAI_TOKEN" then token else none) (Except.ok "/home/dev")
    (fun dir name => dir ++ "/" ++ name)
    (fun _ => some "no such file or directory")
    (fun _ => Except.error "no such file or directory")
    (fun _ => Except.error "yaml: unmarshal errors")
    (fun _ args => if args = ["diff", "--staged"] then CmdResult.mk (some "+ line") none else commit)
    (fun _ _ _ => none)
    (fun _ => Except.ok "body")
    (fun _ => decoded)
    (fun _ _ => pick)

/-- A well-formed choice entry with the given text. -/
def choiceWith (text : String) : GoValue :=
  GoValue.object [("index", GoValue.float64 0),
    ("message", GoValue.object [("role", GoValue.string "assistant"), ("content", GoValue.string text)])]

/-- The environment of a run whose configuration file exists and holds the
given key, with the variable `OPENAI_TOKEN` as given. -/
def World.withConfig (token : Option String) (fileKey : String) : World :=
  World.mk (fun k => if k = "OPENAI_TOKEN" then token else none) (Except.ok "/home/dev")
    (fun dir name => dir ++ "/" ++ name)
    (fun _ => none)
    (fun _ => Except.ok "openai_api_key: from-file")
    (fun _ => Except.ok [("openai_api_key", fileKey)])
    (fun _ _ => CmdResult.mk none (some "exit status 128"))
    (fun _ _ _ => none)
    (fun _ => Except.error "dial tcp: connection refused")
    (fun _ => Except.error "unexpected end of JSON input")
    (fun _ _ => PromptResult.failed "^C")

/-- The environment of a run with the token `sk-env` in which nothing is
staged: the staged-diff command reports no error and prints nothing, so its
output is the empty, non-nil slice. -/
def World.nothingStaged : World :=
  World.mk (fun k => if k = "OPENAI_TOKEN" then some "sk-env" else none) (Except.ok "/home/dev")
    (fun dir name => dir ++ "/" ++ name)
    (fun _ => some "no such file or directory")
    (fun _ => Except.error "no such file or directory")
    (fun _ => Except.error "yaml: unmarshal errors")
    (fun _ args => if args = ["diff", "--staged"] then CmdResult.mk (some "") none
      else CmdResult.mk (some "nothing to commit") (some "exit status 1"))
    (fun _ _ _ => none)
    (fun _ => Except.error "dial tcp: connection refused")
    (fun _ => Except.error "unexpected end of JSON input")
    (fun _ _ => PromptResult.failed "^C")

/-! ## Sample responses -/

/-- A decoded response with three well-formed choices, two of them equal. -/
def threeChoices : List (String × GoValue) :=
  [("id", GoValue.string "chatcmpl-1"),
    ("choices", GoValue.array [choiceWith ":bug: Fix parser", choiceWith ":bug: Fix parser",
      choiceWith ":sparkles: Add parser"])]

/-- A choice entry whose message holds no text: `"content"` is `null`. -/
def textlessChoice : GoValue :=
  GoValue.object [("index", GoValue.float64 4607182418800017408),
    ("message", GoValue.object [("role", GoValue.string "assistant"), ("content", GoValue.null)])]

/-- A decoded response with one well-formed choice followed by a choice whose
message holds no text. -/
def mixedChoices : List (String × GoValue) :=
  [("choices", GoValue.array [choiceWith ":bug: Fix parser", textlessChoice])]

/-- A decoded response whose only choice has no `"message"` field. -/
def legacyChoices : List (String × GoValue) :=
  [("choices", GoValue.array [GoValue.object [("text", GoValue.string ":bug: Fix parser")]])]

/-- A decoded response whose only choice is a number, not an object. -/
def numberChoices : List (String × GoValue) :=
  [("choices", GoValue.array [GoValue.float64 0])]

/-- The environment of a run with the token `sk-env`, in which the service
answers with the given decoded response, the prompt is cancelled and the
commit command is not reached. -/
def World.answering (decoded : List (String × GoValue)) : World :=
  World.sample (some "sk-env") (Except.ok decoded) (PromptResult.failed "^C")
    (CmdResult.mk none (some "exit status 1"))

/-! ## Specification vocabulary -/

/-- A choice entry is well formed with text `t`: it is an object whose
`"message"` is an object whose `"content"` is the string `t`. -/
def WellFormedChoice (c : GoValue) (t : String) : Prop :=
  ∃ fields message, c = GoValue.object fields ∧
    mapIndex fields "message" = GoValue.object message ∧
    mapIndex message "content" = GoValue.string t

/-- A choice entry is an object that holds a `"message"` object. -/
def HasMessageObject (c : GoValue) : Prop :=
  ∃ fields message, c = GoValue.object fields ∧
    mapIndex fields "message" = GoValue.object message

/-- The text of a choice entry, when it has one: the string under
`message.content`. -/
def choiceText (c : GoValue) : Option String :=
  match c with
  | GoValue.object fields =>
    match mapIndex fields "message" with
    | GoValue.object message =>
      match mapIndex message "content" with
      | GoValue.string t => some t
      | _ => none
    | _ => none
  | _ => none

/-- The lines printed in a trace. -/
def printed (tr : List Event) : List String :=
  tr.filterMap fun e => match e with
    | Event.println text => some text
    | _ => none

/-- The network requests made in a trace. -/
def httpCalls (tr : List Event) : List Request :=
  tr.filterMap fun e => match e with
    | Event.httpDo req => some req
    | _ => none

/-- The argument lists of the `git commit` invocations of a trace. -/
def commitCalls (tr : List Event) : List (List String) :=
  tr.filterMap fun e => match e with
    | Event.exec name args => if name = "git" ∧ args.head? = some "commit" then some args else none
    | _ => none

/-- The item lists the selection prompt was invoked with in a trace. -/
def promptCalls (tr : List Event) : List (List String) :=
  tr.filterMap fun e => match e with
    | Event.promptRun _ items _ => some items
    | _ => none

/-- The strings the selection prompt returned successfully in a trace. -/
def promptSelections (tr : List Event) : List String :=
  tr.filterMap fun e => match e with
    | Event.promptRun _ _ (PromptResult.chosen _ item) => some item
    | _ => none

/-! ## Sequencing lemmas -/

theorem bind_returned {α β : Type} (x : Exec α) (f : α → Exec β) (a : α)
    (h : x.outcome = Outcome.returned a) :
    (x >>= f) = ⟨x.trace ++ (f a).trace, (f a).outcome⟩ := by
  show Exec.andThen x f = _
  unfold Exec.andThen
  rw [h]

theorem bind_panicked {α β : Type} (x : Exec α) (f : α → Exec β) (r : String)
    (h : x.outcome = Outcome.panicked r) :
    (x >>= f) = ⟨x.trace, Outcome.panicked r⟩ := by
  show Exec.andThen x f = _
  unfold Exec.andThen
  rw [h]

theorem emit_bind {β : Type} (e : Event) (f : Unit → Exec β) :
    (emit e >>= f) = ⟨e :: (f ()).trace, (f ()).outcome⟩ := by
  rw [bind_returned (emit e) f () rfl]
  rfl

theorem println_bind {β : Type} (text : String) (f : Unit → Exec β) :
    (println text >>= f) = ⟨Event.println text :: (f ()).trace, (f ()).outcome⟩ :=
  emit_bind (Event.println text) f

theorem pure_eq {α : Type} (a : α) : (pure a : Exec α) = ⟨[], Outcome.returned a⟩ := rfl

/-! ## The extraction loop -/

theorem rangeChoices_wellFormed (cs : List GoValue) (ts : List String)
    (h : List.Forall₂ WellFormedChoice cs ts) (acc : List String) :
    rangeChoices cs acc = Outcome.returned (acc ++ ts) := by
  induction h generalizing acc with
  | nil => simp [rangeChoices]
  | cons hc _ ih =>
    obtain ⟨fields, message, rfl, hm, ht⟩ := hc
    simp [rangeChoices, assertMap, hm, ht, ih]

theorem rangeChoices_filterMap (cs : List GoValue)
    (h : ∀ c ∈ cs, HasMessageObject c) (acc : List String) :
    rangeChoices cs acc = Outcome.returned (acc ++ cs.filterMap choiceText) := by
  induction cs generalizing acc with
  | nil => simp [rangeChoices]
  | cons c rest ih =>
    obtain ⟨fields, message, rfl, hm⟩ := h c (List.mem_cons_self _ _)
    have hrest : ∀ c ∈ rest, HasMessageObject c := fun c hc => h c (List.mem_cons_of_mem _ hc)
    cases hcon : mapIndex message "content" <;>
      simp [rangeChoices, assertMap, hm, hcon, ih hrest, choiceText, List.filterMap_cons]

/-- The result of `getCommitMessages` once the request was sent and its body
decoded to a map whose `"choices"` is a list. -/
theorem getCommitMessages_decoded (w : World) (diff : Option String) (key body : String)
    (result : List (String × GoValue)) (cs : List GoValue)
    (hreq : w.newRequest "POST" "https://api.openai.com/v1/chat/completions" (chatRequest diff) = none)
    (hdo : w.httpDo (completionRequest diff key) = Except.ok body)
    (hjson : w.jsonUnmarshal body = Except.ok result)
    (hchoices : mapIndex result "choices" = GoValue.array cs) :
    getCommitMessages w diff key =
      ⟨[Event.httpDo (completionRequest diff key)], rangeChoices cs []⟩ := by
  unfold getCommitMessages
  simp only [hreq, hdo, hjson, hchoices, emit_bind, liftOutcome]

theorem wellFormedChoice_iff (c : GoValue) (t : String) :
    WellFormedChoice c t ↔ choiceText c = some t := by
  constructor
  · rintro ⟨fields, message, rfl, hm, ht⟩
    simp [choiceText, hm, ht]
  · intro h
    cases c with
    | object fields =>
      cases hm : mapIndex fields "message" with
      | object message =>
        cases ht : mapIndex message "content" with
        | string s =>
          simp [choiceText, hm, ht] at h
          exact ⟨fields, message, rfl, hm, by rw [ht, h]⟩
        | _ => simp [choiceText, hm, ht] at h
      | _ => simp [choiceText, hm] at h
    | _ => simp [choiceText] at h

/-! ## Shape of the traces -/

theorem httpCalls_map (lines : List String) : httpCalls (lines.map Event.println) = [] := by
  induction lines with
  | nil => rfl
  | cons l rest ih => simp [httpCalls]

theorem commitCalls_map (lines : List String) : commitCalls (lines.map Event.println) = [] := by
  induction lines with
  | nil => rfl
  | cons l rest ih => simp [commitCalls]

theorem promptCalls_map (lines : List String) : promptCalls (lines.map Event.println) = [] := by
  induction lines with
  | nil => rfl
  | cons l rest ih => simp [promptCalls]

theorem promptSelections_map (lines : List String) :
    promptSelections (lines.map Event.println) = [] := by
  induction lines with
  | nil => rfl
  | cons l rest ih => simp [promptSelections]

theorem httpCalls_append (a b : List Event) : httpCalls (a ++ b) = httpCalls a ++ httpCalls b :=
  List.filterMap_append _ _ _

theorem commitCalls_append (a b : List Event) :
    commitCalls (a ++ b) = commitCalls a ++ commitCalls b :=
  List.filterMap_append _ _ _

theorem promptCalls_append (a b : List Event) :
    promptCalls (a ++ b) = promptCalls a ++ promptCalls b :=
  List.filterMap_append _ _ _

theorem promptSelections_append (a b : List Event) :
    promptSelections (a ++ b) = promptSelections a ++ promptSelections b :=
  List.filterMap_append _ _ _

/-- The function `getAPIKey` only prints, and always returns. -/
theorem getAPIKey_shape (w : World) :
    ∃ (lines : List String) (key : String), getAPIKey w = ⟨lines.map Event.println, Outcome.returned key⟩ := by
  unfold getAPIKey
  simp only [println_bind, pure_eq]
  repeat' split
  all_goals first
    | exact ⟨[], _, rfl⟩
    | exact ⟨[_], _, rfl⟩

/-- The function `gitDiff` runs one command, prints at most one line, and
always returns. -/
theorem gitDiff_eq (w : World) :
    gitDiff w = ⟨Event.exec "git" ["diff", "--staged"] ::
        (match (w.combinedOutput "git" ["diff", "--staged"]).err with
          | some err => [Event.println ("Error running git diff: " ++ err)]
          | none => []),
      Outcome.returned (match (w.combinedOutput "git" ["diff", "--staged"]).err with
          | some _ => none
          | none => (w.combinedOutput "git" ["diff", "--staged"]).output)⟩ := by
  unfold gitDiff
  simp only [emit_bind]
  cases (w.combinedOutput "git" ["diff", "--staged"]).err <;> simp [println_bind, pure_eq]

/-- The function `getCommitMessages` sends at most one request, as its first
action, and otherwise only prints. -/
theorem getCommitMessages_shape (w : World) (diff : Option String) (key : String) :
    ∃ (lines : List String) (o : Outcome (List String)),
      getCommitMessages w diff key = ⟨lines.map Event.println, o⟩ ∨
      getCommitMessages w diff key =
        ⟨Event.httpDo (completionRequest diff key) :: lines.map Event.println, o⟩ := by
  unfold getCommitMessages
  simp only [println_bind, emit_bind, pure_eq, liftOutcome]
  repeat' split
  all_goals first
    | exact ⟨[], _, Or.inl rfl⟩
    | exact ⟨[_], _, Or.inl rfl⟩
    | exact ⟨[], _, Or.inr rfl⟩
    | exact ⟨[_], _, Or.inr rfl⟩

/-- The function `commitChanges` runs one command, prints one line, and
returns. -/
theorem commitChanges_eq (w : World) (message : String) :
    commitChanges w message = ⟨[Event.exec "git" ["commit", "-m", message],
        Event.println (match (w.combinedOutput "git" ["commit", "-m", message]).err with
          | some err => "Error committing changes: " ++ err
          | none => bytesToString (w.combinedOutput "git" ["commit", "-m", message]).output)],
      Outcome.returned ()⟩ := by
  unfold commitChanges
  simp only [emit_bind]
  cases (w.combinedOutput "git" ["commit", "-m", message]).err <;> rfl

/-! ## Reading a trace one event at a time -/

theorem httpCalls_nil : httpCalls [] = [] := rfl

theorem httpCalls_println (t : String) (tr : List Event) :
    httpCalls (Event.println t :: tr) = httpCalls tr := rfl

theorem httpCalls_prompt (l : String) (items : List String) (r : PromptResult)
    (tr : List Event) : httpCalls (Event.promptRun l items r :: tr) = httpCalls tr := rfl

theorem commitCalls_nil : commitCalls [] = [] := rfl

theorem commitCalls_println (t : String) (tr : List Event) :
    commitCalls (Event.println t :: tr) = commitCalls tr := rfl

theorem commitCalls_prompt (l : String) (items : List String) (r : PromptResult)
    (tr : List Event) : commitCalls (Event.promptRun l items r :: tr) = commitCalls tr := rfl

theorem promptCalls_nil : promptCalls [] = [] := rfl

theorem promptCalls_println (t : String) (tr : List Event) :
    promptCalls (Event.println t :: tr) = promptCalls tr := rfl

theorem promptCalls_prompt (l : String) (items : List String) (r : PromptResult)
    (tr : List Event) :
    promptCalls (Event.promptRun l items r :: tr) = items :: promptCalls tr := rfl

theorem promptSelections_nil : promptSelections [] = [] := rfl

theorem promptSelections_println (t : String) (tr : List Event) :
    promptSelections (Event.println t :: tr) = promptSelections tr := rfl

theorem promptSelections_failed (l err : String) (items : List String) (tr : List Event) :
    promptSelections (Event.promptRun l items (PromptResult.failed err) :: tr) =
      promptSelections tr := rfl

theorem promptSelections_chosen (l s : String) (i : Nat) (items : List String)
    (tr : List Event) :
    promptSelections (Event.promptRun l items (PromptResult.chosen i s) :: tr) =
      s :: promptSelections tr := rfl

/-! ## The paths of `Run` -/

/-- The flow halts at the credential stage. -/
theorem run_noKey (w : World) (hA : (getAPIKey w).outcome = Outcome.returned "") :
    commitCmd.Run w = ⟨(getAPIKey w).trace ++ [Event.println
      "No OpenAI API key found. Either set an OPENAI_TOKEN environment variable or use the lazycommit init command to set it."],
      Outcome.returned ()⟩ := by
  unfold commitCmd.Run
  rw [bind_returned _ _ _ hA]
  rfl

/-- The flow halts at the diff stage. -/
theorem run_noDiff (w : World) (key : String)
    (hA : (getAPIKey w).outcome = Outcome.returned key) (hk : key ≠ "")
    (hD : (gitDiff w).outcome = Outcome.returned none) :
    commitCmd.Run w = ⟨(getAPIKey w).trace ++ (gitDiff w).trace, Outcome.returned ()⟩ := by
  unfold commitCmd.Run
  rw [bind_returned _ _ _ hA]
  simp only [if_neg hk]
  rw [bind_returned _ _ _ hD]
  simp [pure_eq]

/-- The flow aborts inside `getCommitMessages`. -/
theorem run_aborted (w : World) (key d reason : String)
    (hA : (getAPIKey w).outcome = Outcome.returned key) (hk : key ≠ "")
    (hD : (gitDiff w).outcome = Outcome.returned (some d))
    (hG : (getCommitMessages w (some d) key).outcome = Outcome.panicked reason) :
    commitCmd.Run w = ⟨(getAPIKey w).trace ++ ((gitDiff w).trace ++
      (getCommitMessages w (some d) key).trace), Outcome.panicked reason⟩ := by
  unfold commitCmd.Run
  rw [bind_returned _ _ _ hA]
  simp only [if_neg hk]
  rw [bind_returned _ _ _ hD]
  simp only []
  rw [bind_panicked _ _ _ hG]

/-- The flow halts at the completion stage. -/
theorem run_noMessages (w : World) (key d : String)
    (hA : (getAPIKey w).outcome = Outcome.returned key) (hk : key ≠ "")
    (hD : (gitDiff w).outcome = Outcome.returned (some d))
    (hG : (getCommitMessages w (some d) key).outcome = Outcome.returned []) :
    commitCmd.Run w = ⟨(getAPIKey w).trace ++ ((gitDiff w).trace ++
      ((getCommitMessages w (some d) key).trace ++
        [Event.println "An error occurred while getting commit messages."])),
      Outcome.returned ()⟩ := by
  unfold commitCmd.Run
  rw [bind_returned _ _ _ hA]
  simp only [if_neg hk]
  rw [bind_returned _ _ _ hD]
  simp only []
  rw [bind_returned _ _ _ hG]
  rfl

/-- The flow reaches the prompt, which fails. -/
theorem run_promptFailed (w : World) (key d err : String) (ms : List String)
    (hA : (getAPIKey w).outcome = Outcome.returned key) (hk : key ≠ "")
    (hD : (gitDiff w).outcome = Outcome.returned (some d))
    (hG : (getCommitMessages w (some d) key).outcome = Outcome.returned ms) (hms : ms ≠ [])
    (hP : w.promptRun "Select a commit message" ms = PromptResult.failed err) :
    commitCmd.Run w = ⟨(getAPIKey w).trace ++ ((gitDiff w).trace ++
      ((getCommitMessages w (some d) key).trace ++
        [Event.promptRun "Select a commit message" ms (PromptResult.failed err),
          Event.println ("Prompt failed: " ++ err)])),
      Outcome.returned ()⟩ := by
  have hlen : ¬ ms.length = 0 := by simpa using hms
  unfold commitCmd.Run
  rw [bind_returned _ _ _ hA]
  simp only [if_neg hk]
  rw [bind_returned _ _ _ hD]
  simp only []
  rw [bind_returned _ _ _ hG]
  simp only [if_neg hlen, hP, emit_bind]
  rfl

/-- The flow reaches the prompt, which returns a string, and commits. -/
theorem run_committed (w : World) (key d s : String) (i : Nat) (ms : List String)
    (hA : (getAPIKey w).outcome = Outcome.returned key) (hk : key ≠ "")
    (hD : (gitDiff w).outcome = Outcome.returned (some d))
    (hG : (getCommitMessages w (some d) key).outcome = Outcome.returned ms) (hms : ms ≠ [])
    (hP : w.promptRun "Select a commit message" ms = PromptResult.chosen i s) :
    commitCmd.Run w = ⟨(getAPIKey w).trace ++ ((gitDiff w).trace ++
      ((getCommitMessages w (some d) key).trace ++
        (Event.promptRun "Select a commit message" ms (PromptResult.chosen i s) ::
          (commitChanges w s).trace))),
      Outcome.returned ()⟩ := by
  have hlen : ¬ ms.length = 0 := by simpa using hms
  unfold commitCmd.Run
  rw [bind_returned _ _ _ hA]
  simp only [if_neg hk]
  rw [bind_returned _ _ _ hD]
  simp only []
  rw [bind_returned _ _ _ hG]
  simp only [if_neg hlen, hP, emit_bind, commitChanges_eq]

/-- Every run of the flow follows one of six paths. -/
theorem run_cases (w : World) (P : Exec Unit → Prop)
    (noKey : (getAPIKey w).outcome = Outcome.returned "" →
      P ⟨(getAPIKey w).trace ++ [Event.println
        "No OpenAI API key found. Either set an OPENAI_TOKEN environment variable or use the lazycommit init command to set it."],
        Outcome.returned ()⟩)
    (noDiff : ∀ key, (getAPIKey w).outcome = Outcome.returned key → key ≠ "" →
      (gitDiff w).outcome = Outcome.returned none →
      P ⟨(getAPIKey w).trace ++ (gitDiff w).trace, Outcome.returned ()⟩)
    (aborted : ∀ key d reason, (getAPIKey w).outcome = Outcome.returned key → key ≠ "" →
      (gitDiff w).outcome = Outcome.returned (some d) →
      (getCommitMessages w (some d) key).outcome = Outcome.panicked reason →
      P ⟨(getAPIKey w).trace ++ ((gitDiff w).trace ++ (getCommitMessages w (some d) key).trace),
        Outcome.panicked reason⟩)
    (noMessages : ∀ key d, (getAPIKey w).outcome = Outcome.returned key → key ≠ "" →
      (gitDiff w).outcome = Outcome.returned (some d) →
      (getCommitMessages w (some d) key).outcome = Outcome.returned [] →
      P ⟨(getAPIKey w).trace ++ ((gitDiff w).trace ++ ((getCommitMessages w (some d) key).trace ++
        [Event.println "An error occurred while getting commit messages."])),
        Outcome.returned ()⟩)
    (promptFailed : ∀ key d err ms, (getAPIKey w).outcome = Outcome.returned key → key ≠ "" →
      (gitDiff w).outcome = Outcome.returned (some d) →
      (getCommitMessages w (some d) key).outcome = Outcome.returned ms → ms ≠ [] →
      w.promptRun "Select a commit message" ms = PromptResult.failed err →
      P ⟨(getAPIKey w).trace ++ ((gitDiff w).trace ++ ((getCommitMessages w (some d) key).trace ++
        [Event.promptRun "Select a commit message" ms (PromptResult.failed err),
          Event.println ("Prompt failed: " ++ err)])),
        Outcome.returned ()⟩)
    (committed : ∀ key d s i ms, (getAPIKey w).outcome = Outcome.returned key → key ≠ "" →
      (gitDiff w).outcome = Outcome.returned (some d) →
      (getCommitMessages w (some d) key).outcome = Outcome.returned ms → ms ≠ [] →
      w.promptRun "Select a commit message" ms = PromptResult.chosen i s →
      P ⟨(getAPIKey w).trace ++ ((gitDiff w).trace ++ ((getCommitMessages w (some d) key).trace ++
        (Event.promptRun "Select a commit message" ms (PromptResult.chosen i s) ::
          (commitChanges w s).trace))),
        Outcome.returned ()⟩) :
    P (commitCmd.Run w) := by
  obtain ⟨lines, key, hA⟩ := getAPIKey_shape w
  have hAo : (getAPIKey w).outcome = Outcome.returned key := by rw [hA]
  by_cases hk : key = ""
  · subst hk
    rw [run_noKey w hAo]
    exact noKey hAo
  · obtain ⟨d, hD⟩ : ∃ d, (gitDiff w).outcome = Outcome.returned d := ⟨_, by rw [gitDiff_eq]⟩
    cases d with
    | none =>
      rw [run_noDiff w key hAo hk hD]
      exact noDiff key hAo hk hD
    | some d =>
      cases hG : (getCommitMessages w (some d) key).outcome with
      | panicked reason =>
        rw [run_aborted w key d reason hAo hk hD hG]
        exact aborted key d reason hAo hk hD hG
      | returned ms =>
        cases ms with
        | nil =>
          rw [run_noMessages w key d hAo hk hD hG]
          exact noMessages key d hAo hk hD hG
        | cons m rest =>
          have hms : m :: rest ≠ [] := List.cons_ne_nil m rest
          cases hP : w.promptRun "Select a commit message" (m :: rest) with
          | failed err =>
            rw [run_promptFailed w key d err (m :: rest) hAo hk hD hG hms hP]
            exact promptFailed key d err (m :: rest) hAo hk hD hG hms hP
          | chosen i s =>
            rw [run_committed w key d s i (m :: rest) hAo hk hD hG hms hP]
            exact committed key d s i (m :: rest) hAo hk hD hG hms hP

/-- The credential stage sends nothing, commits nothing, prompts nothing. -/
theorem getAPIKey_quiet (w : World) :
    httpCalls (getAPIKey w).trace = [] ∧ commitCalls (getAPIKey w).trace = [] ∧
      promptCalls (getAPIKey w).trace = [] ∧ promptSelections (getAPIKey w).trace = [] := by
  obtain ⟨lines, key, hA⟩ := getAPIKey_shape w
  rw [hA]
  exact ⟨httpCalls_map lines, commitCalls_map lines, promptCalls_map lines,
    promptSelections_map lines⟩

/-- The diff stage sends nothing, commits nothing, prompts nothing. -/
theorem gitDiff_quiet (w : World) :
    httpCalls (gitDiff w).trace = [] ∧ commitCalls (gitDiff w).trace = [] ∧
      promptCalls (gitDiff w).trace = [] ∧ promptSelections (gitDiff w).trace = [] := by
  rw [gitDiff_eq]
  cases (w.combinedOutput "git" ["diff", "--staged"]).err <;>
    simp [httpCalls, commitCalls, promptCalls, promptSelections]

/-- The completion stage sends at most one request, commits nothing, prompts
nothing. -/
theorem getCommitMessages_quiet (w : World) (diff : Option String) (key : String) :
    (httpCalls (getCommitMessages w diff key).trace).length ≤ 1 ∧
      commitCalls (getCommitMessages w diff key).trace = [] ∧
      promptCalls (getCommitMessages w diff key).trace = [] ∧
      promptSelections (getCommitMessages w diff key).trace = [] := by
  obtain ⟨lines, o, h | h⟩ := getCommitMessages_shape w diff key
  · rw [h]
    simp [httpCalls_map, commitCalls_map, promptCalls_map, promptSelections_map]
  · rw [h]
    have h1 : httpCalls (Event.httpDo (completionRequest diff key) :: lines.map Event.println) =
        completionRequest diff key :: httpCalls (lines.map Event.println) := rfl
    have h2 : commitCalls (Event.httpDo (completionRequest diff key) :: lines.map Event.println) =
        commitCalls (lines.map Event.println) := rfl
    have h3 : promptCalls (Event.httpDo (completionRequest diff key) :: lines.map Event.println) =
        promptCalls (lines.map Event.println) := rfl
    have h4 : promptSelections
        (Event.httpDo (completionRequest diff key) :: lines.map Event.println) =
        promptSelections (lines.map Event.println) := rfl
    simp [h1, h2, h3, h4, httpCalls_map, commitCalls_map, promptCalls_map, promptSelections_map]

/-- The commit stage invokes `git commit -m message` once and nothing else. -/
theorem commitChanges_calls (w : World) (message : String) :
    httpCalls (commitChanges w message).trace = [] ∧
      commitCalls (commitChanges w message).trace = [["commit", "-m", message]] ∧
      promptCalls (commitChanges w message).trace = [] ∧
      promptSelections (commitChanges w message).trace = [] := by
  rw [commitChanges_eq]
  simp [httpCalls, commitCalls, promptCalls, promptSelections]

theorem wellFormedChoice_choiceWith (t : String) : WellFormedChoice (choiceWith t) t :=
  ⟨_, _, rfl, rfl, rfl⟩

/-! ## Response parsing -/

/-- C1: when the decoded response holds under `"choices"` a list of `N`
entries, each an object with a `"message"` object with a string `"content"`,
`getCommitMessages` returns exactly the `N` content strings, in response order,
duplicates kept. -/
theorem getCommitMessages_wellFormed (w : World) (diff : Option String) (key body : String)
    (result : List (String × GoValue)) (cs : List GoValue) (ts : List String)
    (hreq : w.newRequest "POST" "https://api.openai.com/v1/chat/completions" (chatRequest diff) = none)
    (hdo : w.httpDo (completionRequest diff key) = Except.ok body)
    (hjson : w.jsonUnmarshal body = Except.ok result)
    (hchoices : mapIndex result "choices" = GoValue.array cs)
    (hwf : List.Forall₂ WellFormedChoice cs ts) :
    (getCommitMessages w diff key).outcome = Outcome.returned ts ∧ ts.length = cs.length := by
  rw [getCommitMessages_decoded w diff key body result cs hreq hdo hjson hchoices]
  exact ⟨by simpa using rangeChoices_wellFormed cs ts hwf [], hwf.length_eq.symm⟩

/-- C1 at a response with three well-formed choices, two of them equal. -/
theorem getCommitMessages_wellFormed_witness :
    (getCommitMessages (World.answering threeChoices) (some "+ line") "sk-env").outcome =
        Outcome.returned [":bug: Fix parser", ":bug: Fix parser", ":sparkles: Add parser"] ∧
      [":bug: Fix parser", ":bug: Fix parser", ":sparkles: Add parser"].length =
        [choiceWith ":bug: Fix parser", choiceWith ":bug: Fix parser",
          choiceWith ":sparkles: Add parser"].length :=
  getCommitMessages_wellFormed (World.answering threeChoices) (some "+ line") "sk-env" "body"
    threeChoices _ _ rfl rfl rfl rfl
    (List.Forall₂.cons (wellFormedChoice_choiceWith _)
      (List.Forall₂.cons (wellFormedChoice_choiceWith _)
        (List.Forall₂.cons (wellFormedChoice_choiceWith _) List.Forall₂.nil)))

/-- C2, as stated, fails: a response whose `"choices"` holds a well-formed
entry and an entry without a string `message.content` does not yield the empty
list; the well-formed entry is extracted. -/
theorem getCommitMessages_partial_extraction :
    ¬ (∀ (w : World) (diff : Option String) (key body : String)
        (result : List (String × GoValue)) (cs : List GoValue),
        w.newRequest "POST" "https://api.openai.com/v1/chat/completions" (chatRequest diff) = none →
        w.httpDo (completionRequest diff key) = Except.ok body →
        w.jsonUnmarshal body = Except.ok result →
        mapIndex result "choices" = GoValue.array cs →
        (∃ c ∈ cs, ∀ t, ¬ WellFormedChoice c t) →
        (getCommitMessages w diff key).outcome = Outcome.returned []) := by
  intro h
  have hbad : ∃ c ∈ [choiceWith ":bug: Fix parser", textlessChoice],
      ∀ t, ¬ WellFormedChoice c t := by
    refine ⟨textlessChoice, by simp, fun t ht => ?_⟩
    rw [wellFormedChoice_iff] at ht
    exact Option.noConfusion ht
  have h0 := h (World.answering mixedChoices) (some "+ line") "sk-env" "body" mixedChoices
    [choiceWith ":bug: Fix parser", textlessChoice] rfl rfl rfl rfl hbad
  have h1 : (getCommitMessages (World.answering mixedChoices) (some "+ line") "sk-env").outcome =
      Outcome.returned [":bug: Fix parser"] := by decide
  rw [h1] at h0
  exact absurd h0 (by decide)

/-- C2, amended: when every entry of `"choices"` is an object holding a
`"message"` object, `getCommitMessages` returns the `message.content` strings
of the entries that have one, in response order, and skips the entries whose
`"content"` is absent or not a string. -/
theorem getCommitMessages_skips_textless (w : World) (diff : Option String) (key body : String)
    (result : List (String × GoValue)) (cs : List GoValue)
    (hreq : w.newRequest "POST" "https://api.openai.com/v1/chat/completions" (chatRequest diff) = none)
    (hdo : w.httpDo (completionRequest diff key) = Except.ok body)
    (hjson : w.jsonUnmarshal body = Except.ok result)
    (hchoices : mapIndex result "choices" = GoValue.array cs)
    (hobj : ∀ c ∈ cs, HasMessageObject c) :
    (getCommitMessages w diff key).outcome = Outcome.returned (cs.filterMap choiceText) := by
  rw [getCommitMessages_decoded w diff key body result cs hreq hdo hjson hchoices]
  simpa using rangeChoices_filterMap cs hobj []

/-- C2, amended, at a response with a well-formed choice and a choice whose
`"content"` is `null`. -/
theorem getCommitMessages_skips_textless_witness :
    (getCommitMessages (World.answering mixedChoices) (some "+ line") "sk-env").outcome =
      Outcome.returned
        ([choiceWith ":bug: Fix parser", textlessChoice].filterMap choiceText) :=
  getCommitMessages_skips_textless (World.answering mixedChoices) (some "+ line") "sk-env" "body"
    mixedChoices [choiceWith ":bug: Fix parser", textlessChoice] rfl rfl rfl rfl
    (by
      intro c hc
      simp only [List.mem_cons, List.mem_singleton, List.not_mem_nil, or_false] at hc
      rcases hc with rfl | rfl
      · exact ⟨_, _, rfl, rfl⟩
      · exact ⟨_, _, rfl, rfl⟩)

/-- C3: on a decoded response whose choice has no `"message"` field, and on
one whose choice is not an object, `getCommitMessages` does not return: the
unchecked type assertion aborts the program after the request was sent. -/
theorem getCommitMessages_aborts_on_malformed_choice :
    getCommitMessages (World.answering legacyChoices) (some "+ line") "sk-env" =
        ⟨[Event.httpDo (completionRequest (some "+ line") "sk-env")], Outcome.panicked
          "interface conversion: interface \x7b\x7d is nil, not map[string]interface \x7b\x7d"⟩ ∧
      getCommitMessages (World.answering numberChoices) (some "+ line") "sk-env" =
        ⟨[Event.httpDo (completionRequest (some "+ line") "sk-env")], Outcome.panicked
          "interface conversion: interface \x7b\x7d is float64, not map[string]interface \x7b\x7d"⟩ := by
  constructor <;> rfl

/-! ## The commit -/

/-- C4: in every run the `git commit` invocations are exactly the invocations
with arguments `commit`, `-m`, `s` for the strings `s` the selection prompt
returned successfully, and the prompt returns at most once; so the commit is
invoked once with the unmodified selection when the prompt succeeded, and not
at all otherwise. -/
theorem run_commit_iff_selection (w : World) :
    commitCalls (commitCmd.Run w).trace =
        (promptSelections (commitCmd.Run w).trace).map (fun s => ["commit", "-m", s]) ∧
      (promptSelections (commitCmd.Run w).trace).length ≤ 1 := by
  have hA := getAPIKey_quiet w
  have hD := gitDiff_quiet w
  refine run_cases w (fun x => commitCalls x.trace =
      (promptSelections x.trace).map (fun s => ["commit", "-m", s]) ∧
      (promptSelections x.trace).length ≤ 1) ?_ ?_ ?_ ?_ ?_ ?_
  · intro _
    simp [commitCalls_append, promptSelections_append, hA, commitCalls_println,
      promptSelections_println, commitCalls_nil, promptSelections_nil]
  · intro key _ _ _
    simp [commitCalls_append, promptSelections_append, hA, hD]
  · intro key d reason _ _ _ _
    have hG := getCommitMessages_quiet w (some d) key
    simp [commitCalls_append, promptSelections_append, hA, hD, hG]
  · intro key d _ _ _ _
    have hG := getCommitMessages_quiet w (some d) key
    simp [commitCalls_append, promptSelections_append, hA, hD, hG, commitCalls_println,
      promptSelections_println, commitCalls_nil, promptSelections_nil]
  · intro key d err ms _ _ _ _ _ _
    have hG := getCommitMessages_quiet w (some d) key
    simp [commitCalls_append, promptSelections_append, hA, hD, hG, commitCalls_println,
      promptSelections_println, commitCalls_nil, promptSelections_nil, commitCalls_prompt,
      promptSelections_failed]
  · intro key d s i ms _ _ _ _ _ _
    have hG := getCommitMessages_quiet w (some d) key
    have hC := commitChanges_calls w s
    simp [commitCalls_append, promptSelections_append, hA, hD, hG, hC, commitCalls_prompt,
      promptSelections_chosen]

/-- C7, as stated, fails: when `git commit` reports an error, its combined
output is not printed; no printed line even contains it. -/
theorem commitChanges_error_hides_output :
    ¬ (∀ (w : World) (message out err : String),
        w.combinedOutput "git" ["commit", "-m", message] = CmdResult.mk (some out) (some err) →
        ∃ line ∈ printed (commitChanges w message).trace, out.data <:+: line.data) := by
  intro h
  obtain ⟨line, hline, hin⟩ := h
    (World.sample (some "sk-env") (Except.ok threeChoices) (PromptResult.chosen 0 ":bug: Fix parser")
      (CmdResult.mk (some "nothing to commit") (some "exit status 1")))
    ":bug: Fix parser" "nothing to commit" "exit status 1" rfl
  have hp : printed (commitChanges
      (World.sample (some "sk-env") (Except.ok threeChoices)
        (PromptResult.chosen 0 ":bug: Fix parser")
        (CmdResult.mk (some "nothing to commit") (some "exit status 1")))
      ":bug: Fix parser").trace = ["Error committing changes: exit status 1"] := by decide
  rw [hp, List.mem_singleton] at hline
  subst hline
  revert hin
  decide

/-- C7, amended: when `git commit` reports an error, `commitChanges` invokes
the command once, prints the single line `Error committing changes: ` followed
by the text of the error value, and returns normally; the combined output of
the command is printed only when the command reports no error. -/
theorem commitChanges_prints (w : World) (message : String) :
    (∀ err, (w.combinedOutput "git" ["commit", "-m", message]).err = some err →
      commitChanges w message = ⟨[Event.exec "git" ["commit", "-m", message],
        Event.println ("Error committing changes: " ++ err)], Outcome.returned ()⟩) ∧
    ((w.combinedOutput "git" ["commit", "-m", message]).err = none →
      commitChanges w message = ⟨[Event.exec "git" ["commit", "-m", message],
        Event.println (bytesToString (w.combinedOutput "git" ["commit", "-m", message]).output)],
        Outcome.returned ()⟩) := by
  rw [commitChanges_eq]
  constructor
  · intro err h
    rw [h]
  · intro h
    rw [h]

/-- C7, amended, at a commit command that fails with `exit status 1`. -/
theorem commitChanges_prints_witness :
    commitChanges (World.answering threeChoices) ":bug: Fix parser" =
      ⟨[Event.exec "git" ["commit", "-m", ":bug: Fix parser"],
        Event.println ("Error committing changes: " ++ "exit status 1")], Outcome.returned ()⟩ :=
  (commitChanges_prints (World.answering threeChoices) ":bug: Fix parser").1 "exit status 1" rfl

/-! ## The credential -/

/-- C5, as stated, fails: with `OPENAI_TOKEN` set to the empty string and a
configuration file holding a key, `getAPIKey` returns the key of the file, not
the value of the variable. -/
theorem getAPIKey_empty_env_falls_back :
    ¬ (∀ (w : World) (v : String), w.lookupEnv "OPENAI_TOKEN" = some v →
        (getAPIKey w).outcome = Outcome.returned v) := by
  intro h
  have h0 := h (World.withConfig (some "") "sk-file") "" rfl
  have h1 : (getAPIKey (World.withConfig (some "") "sk-file")).outcome =
      Outcome.returned "sk-file" := by decide
  rw [h1] at h0
  exact absurd h0 (by decide)

/-- C5, amended: for every non-empty value `v` of `OPENAI_TOKEN` and every
state of the home directory and of the configuration file, `getAPIKey` returns
`v` and prints nothing. -/
theorem getAPIKey_env_precedence (w : World) (v : String)
    (hset : w.lookupEnv "OPENAI_TOKEN" = some v) (hv : v ≠ "") :
    getAPIKey w = ⟨[], Outcome.returned v⟩ := by
  have hget : w.getenv "OPENAI_TOKEN" = v := by simp [World.getenv, hset]
  unfold getAPIKey
  simp only [hget, if_neg hv, pure_eq]

/-- C5, amended, at `OPENAI_TOKEN=sk-env` with a configuration file holding
`sk-file`. -/
theorem getAPIKey_env_precedence_witness :
    getAPIKey (World.withConfig (some "sk-env") "sk-file") = ⟨[], Outcome.returned "sk-env"⟩ :=
  getAPIKey_env_precedence (World.withConfig (some "sk-env") "sk-file") "sk-env" rfl (by decide)

/-- C8, as stated, fails: when the variable yields nothing and `os.Stat` of
the configuration file fails, `getAPIKey` returns the empty string without
printing anything. -/
theorem getAPIKey_stat_failure_silent :
    ¬ (∀ (w : World) (home err : String), w.getenv "OPENAI_TOKEN" = "" →
        w.userHomeDir = Except.ok home →
        w.stat (w.filepathJoin home ".lazycommit.yaml") = some err →
        (getAPIKey w).outcome = Outcome.returned "" ∧ printed (getAPIKey w).trace ≠ []) := by
  intro h
  have h0 := (h (World.sample none (Except.ok threeChoices) (PromptResult.failed "^C")
    (CmdResult.mk none none)) "/home/dev" "no such file or directory" rfl rfl rfl).2
  exact h0 (by decide)

/-- C8, amended: when the variable yields no credential, a failure of the
home-directory lookup, of the read of the configuration file or of its YAML
parse makes `getAPIKey` print one diagnostic carrying the error and return the
empty string; a failure of `os.Stat` on the configuration file makes it return
the empty string and print nothing; in every case it returns. -/
theorem getAPIKey_fallback_failures (w : World) (henv : w.getenv "OPENAI_TOKEN" = "") :
    (∀ err, w.userHomeDir = Except.error err →
      getAPIKey w = ⟨[Event.println ("Error getting home directory: " ++ err)],
        Outcome.returned ""⟩) ∧
    (∀ home err, w.userHomeDir = Except.ok home →
      w.stat (w.filepathJoin home ".lazycommit.yaml") = some err →
      getAPIKey w = ⟨[], Outcome.returned ""⟩) ∧
    (∀ home err, w.userHomeDir = Except.ok home →
      w.stat (w.filepathJoin home ".lazycommit.yaml") = none →
      w.readFile (w.filepathJoin home ".lazycommit.yaml") = Except.error err →
      getAPIKey w = ⟨[Event.println ("Error reading config file: " ++ err)],
        Outcome.returned ""⟩) ∧
    (∀ home configFile err, w.userHomeDir = Except.ok home →
      w.stat (w.filepathJoin home ".lazycommit.yaml") = none →
      w.readFile (w.filepathJoin home ".lazycommit.yaml") = Except.ok configFile →
      w.yamlUnmarshal configFile = Except.error err →
      getAPIKey w = ⟨[Event.println ("Error parsing config file: " ++ err)],
        Outcome.returned ""⟩) ∧
    (∃ key, (getAPIKey w).outcome = Outcome.returned key) := by
  refine ⟨?_, ?_, ?_, ?_, ?_⟩
  · intro err h
    unfold getAPIKey
    simp only [henv, if_true, h, println_bind, pure_eq]
  · intro home err h hs
    unfold getAPIKey
    simp only [henv, if_true, h, hs, pure_eq]
  · intro home err h hs hr
    unfold getAPIKey
    simp only [henv, if_true, h, hs, hr, println_bind, pure_eq]
  · intro home configFile err h hs hr hy
    unfold getAPIKey
    simp only [henv, if_true, h, hs, hr, hy, println_bind, pure_eq]
  · obtain ⟨lines, key, hA⟩ := getAPIKey_shape w
    exact ⟨key, by rw [hA]⟩

/-- C8, amended, at an environment without the variable and without a home
directory. -/
theorem getAPIKey_fallback_failures_witness :
    getAPIKey World.failing =
      ⟨[Event.println ("Error getting home directory: " ++ "$HOME is not defined")],
        Outcome.returned ""⟩ :=
  (getAPIKey_fallback_failures World.failing rfl).1 "$HOME is not defined" rfl

/-! ## The flow -/

/-- C6: in a run in which `getAPIKey` yields the empty string or `gitDiff`
yields the unavailable value, no network request is made, no commit is invoked
and the flow returns; and in every run at most one network request is made. -/
theorem run_halts_before_request (w : World) :
    (((getAPIKey w).outcome = Outcome.returned "" ∨
        (gitDiff w).outcome = Outcome.returned none) →
      httpCalls (commitCmd.Run w).trace = [] ∧ commitCalls (commitCmd.Run w).trace = [] ∧
        (commitCmd.Run w).outcome = Outcome.returned ()) ∧
    (httpCalls (commitCmd.Run w).trace).length ≤ 1 := by
  have hA := getAPIKey_quiet w
  have hD := gitDiff_quiet w
  refine run_cases w (fun x =>
    (((getAPIKey w).outcome = Outcome.returned "" ∨
        (gitDiff w).outcome = Outcome.returned none) →
      httpCalls x.trace = [] ∧ commitCalls x.trace = [] ∧ x.outcome = Outcome.returned ()) ∧
    (httpCalls x.trace).length ≤ 1) ?_ ?_ ?_ ?_ ?_ ?_
  · intro _
    simp [httpCalls_append, commitCalls_append, hA, httpCalls_println, commitCalls_println,
      httpCalls_nil, commitCalls_nil]
  · intro key _ _ _
    simp [httpCalls_append, commitCalls_append, hA, hD]
  · intro key d reason h1 hk h2 _
    have hG := getCommitMessages_quiet w (some d) key
    refine ⟨fun h => ?_, by simp [httpCalls_append, hA, hD, hG]⟩
    rcases h with h | h
    · rw [h1] at h
      exact absurd (Outcome.returned.inj h) hk
    · rw [h2] at h
      exact absurd (Outcome.returned.inj h) (by simp)
  · intro key d h1 hk h2 _
    have hG := getCommitMessages_quiet w (some d) key
    refine ⟨fun h => ?_, by
      simp [httpCalls_append, hA, hD, hG, httpCalls_println, httpCalls_nil]⟩
    rcases h with h | h
    · rw [h1] at h
      exact absurd (Outcome.returned.inj h) hk
    · rw [h2] at h
      exact absurd (Outcome.returned.inj h) (by simp)
  · intro key d err ms h1 hk h2 _ _ _
    have hG := getCommitMessages_quiet w (some d) key
    refine ⟨fun h => ?_, by
      simp [httpCalls_append, hA, hD, hG, httpCalls_println, httpCalls_prompt, httpCalls_nil]⟩
    rcases h with h | h
    · rw [h1] at h
      exact absurd (Outcome.returned.inj h) hk
    · rw [h2] at h
      exact absurd (Outcome.returned.inj h) (by simp)
  · intro key d s i ms h1 hk h2 _ _ _
    have hG := getCommitMessages_quiet w (some d) key
    have hC := commitChanges_calls w s
    refine ⟨fun h => ?_, by
      simp [httpCalls_append, hA, hD, hG, hC, httpCalls_prompt]⟩
    rcases h with h | h
    · rw [h1] at h
      exact absurd (Outcome.returned.inj h) hk
    · rw [h2] at h
      exact absurd (Outcome.returned.inj h) (by simp)

/-- C6 at an environment in which no credential is found. -/
theorem run_halts_before_request_witness :
    httpCalls (commitCmd.Run World.failing).trace = [] ∧
      commitCalls (commitCmd.Run World.failing).trace = [] ∧
      (commitCmd.Run World.failing).outcome = Outcome.returned () :=
  (run_halts_before_request World.failing).1 (Or.inl rfl)

/-- C9: provided a staged-diff command that reports no error hands back a
non-nil output slice (as `CombinedOutput` does: its buffer is allocated before
the first read of the output, also when the command prints nothing), `gitDiff`
yields the unavailable value exactly when the command reported an error; and
whenever the flow halts at the diff stage on the unavailable value, the line
`Error running git diff: ` with the error is the last thing done before the
flow returns. -/
theorem gitDiff_unavailable_iff_error (w : World)
    (hlib : (w.combinedOutput "git" ["diff", "--staged"]).err = none →
      (w.combinedOutput "git" ["diff", "--staged"]).output ≠ none) :
    ((gitDiff w).outcome = Outcome.returned none ↔
      (w.combinedOutput "git" ["diff", "--staged"]).err ≠ none) ∧
    (∀ key, (getAPIKey w).outcome = Outcome.returned key → key ≠ "" →
      (gitDiff w).outcome = Outcome.returned none →
      ∃ err, (w.combinedOutput "git" ["diff", "--staged"]).err = some err ∧
        commitCmd.Run w = ⟨(getAPIKey w).trace ++ [Event.exec "git" ["diff", "--staged"],
          Event.println ("Error running git diff: " ++ err)], Outcome.returned ()⟩) := by
  have hiff : (gitDiff w).outcome = Outcome.returned none ↔
      (w.combinedOutput "git" ["diff", "--staged"]).err ≠ none := by
    rw [gitDiff_eq]
    cases herr : (w.combinedOutput "git" ["diff", "--staged"]).err with
    | some err => simp
    | none =>
      have := hlib herr
      simpa using this
  refine ⟨hiff, fun key hA hk hD => ?_⟩
  have hne := hiff.mp hD
  cases herr : (w.combinedOutput "git" ["diff", "--staged"]).err with
  | none => exact absurd herr hne
  | some err =>
    refine ⟨err, rfl, ?_⟩
    rw [run_noDiff w key hA hk hD, gitDiff_eq, herr]

/-- C9 at a staged-diff command that succeeds and prints nothing. -/
theorem gitDiff_unavailable_iff_error_witness :
    ((gitDiff World.nothingStaged).outcome = Outcome.returned none ↔
      (World.nothingStaged.combinedOutput "git" ["diff", "--staged"]).err ≠ none) ∧
    (∀ key, (getAPIKey World.nothingStaged).outcome = Outcome.returned key → key ≠ "" →
      (gitDiff World.nothingStaged).outcome = Outcome.returned none →
      ∃ err, (World.nothingStaged.combinedOutput "git" ["diff", "--staged"]).err = some err ∧
        commitCmd.Run World.nothingStaged =
          ⟨(getAPIKey World.nothingStaged).trace ++ [Event.exec "git" ["diff", "--staged"],
            Event.println ("Error running git diff: " ++ err)], Outcome.returned ()⟩) :=
  gitDiff_unavailable_iff_error World.nothingStaged (fun _ => by decide)

/-- C10: in every run the selection prompt is only invoked with a non-empty
list; and when `getCommitMessages` returns a list of length 0, the flow prints
`An error occurred while getting commit messages.` and returns with no prompt
and no commit.  A failed request, an undecodable body, a `"choices"` that is
absent or not a list, and an empty `"choices"` list each make
`getCommitMessages` return such a list. -/
theorem run_prompt_nonempty (w : World) :
    (∀ items ∈ promptCalls (commitCmd.Run w).trace, items ≠ []) ∧
    (∀ key d, (getAPIKey w).outcome = Outcome.returned key → key ≠ "" →
      (gitDiff w).outcome = Outcome.returned (some d) →
      (getCommitMessages w (some d) key).outcome = Outcome.returned [] →
      commitCmd.Run w = ⟨(getAPIKey w).trace ++ ((gitDiff w).trace ++
          ((getCommitMessages w (some d) key).trace ++
            [Event.println "An error occurred while getting commit messages."])),
          Outcome.returned ()⟩ ∧
        promptCalls (commitCmd.Run w).trace = [] ∧ commitCalls (commitCmd.Run w).trace = []) ∧
    (∀ diff key err,
      w.newRequest "POST" "https://api.openai.com/v1/chat/completions" (chatRequest diff) =
        some err →
      (getCommitMessages w diff key).outcome = Outcome.returned []) ∧
    (∀ diff key,
      w.newRequest "POST" "https://api.openai.com/v1/chat/completions" (chatRequest diff) = none →
      (∀ err, w.httpDo (completionRequest diff key) = Except.error err →
        (getCommitMessages w diff key).outcome = Outcome.returned []) ∧
      (∀ body err, w.httpDo (completionRequest diff key) = Except.ok body →
        w.jsonUnmarshal body = Except.error err →
        (getCommitMessages w diff key).outcome = Outcome.returned []) ∧
      (∀ body result, w.httpDo (completionRequest diff key) = Except.ok body →
        w.jsonUnmarshal body = Except.ok result →
        (∀ cs, mapIndex result "choices" ≠ GoValue.array cs) →
        (getCommitMessages w diff key).outcome = Outcome.returned []) ∧
      (∀ body result, w.httpDo (completionRequest diff key) = Except.ok body →
        w.jsonUnmarshal body = Except.ok result →
        mapIndex result "choices" = GoValue.array [] →
        (getCommitMessages w diff key).outcome = Outcome.returned [])) := by
  have hA := getAPIKey_quiet w
  have hD := gitDiff_quiet w
  refine ⟨?_, ?_, ?_, ?_⟩
  · refine run_cases w (fun x => ∀ items ∈ promptCalls x.trace, items ≠ []) ?_ ?_ ?_ ?_ ?_ ?_
    · intro _
      simp [promptCalls_append, hA, promptCalls_println, promptCalls_nil]
    · intro key _ _ _
      simp [promptCalls_append, hA, hD]
    · intro key d reason _ _ _ _
      have hG := getCommitMessages_quiet w (some d) key
      simp [promptCalls_append, hA, hD, hG]
    · intro key d _ _ _ _
      have hG := getCommitMessages_quiet w (some d) key
      simp [promptCalls_append, hA, hD, hG, promptCalls_println, promptCalls_nil]
    · intro key d err ms _ _ _ _ hms _
      have hG := getCommitMessages_quiet w (some d) key
      simpa [promptCalls_append, hA, hD, hG, promptCalls_println, promptCalls_prompt,
        promptCalls_nil] using hms
    · intro key d s i ms _ _ _ _ hms _
      have hG := getCommitMessages_quiet w (some d) key
      have hC := commitChanges_calls w s
      simpa [promptCalls_append, hA, hD, hG, hC, promptCalls_prompt] using hms
  · intro key d h1 hk h2 h3
    have hG := getCommitMessages_quiet w (some d) key
    rw [run_noMessages w key d h1 hk h2 h3]
    refine ⟨rfl, ?_, ?_⟩
    · simp [promptCalls_append, hA, hD, hG, promptCalls_println, promptCalls_nil]
    · simp [commitCalls_append, hA, hD, hG, commitCalls_println, commitCalls_nil]
  · intro diff key err hreq
    unfold getCommitMessages
    simp only [hreq, println_bind, pure_eq]
  · intro diff key hreq
    refine ⟨?_, ?_, ?_, ?_⟩
    · intro err hdo
      unfold getCommitMessages
      simp only [hreq, hdo, emit_bind, println_bind, pure_eq]
    · intro body err hdo hjson
      unfold getCommitMessages
      simp only [hreq, hdo, hjson, emit_bind, println_bind, pure_eq]
    · intro body result hdo hjson hno
      unfold getCommitMessages
      cases hc : mapIndex result "choices" with
      | array cs => exact absurd hc (hno cs)
      | _ => simp only [hreq, hdo, hjson, hc, emit_bind, println_bind, pure_eq]
    · intro body result hdo hjson hnil
      rw [getCommitMessages_decoded w diff key body result [] hreq hdo hjson hnil]
      rfl

/-- C10 at a service that answers with an error object, without `"choices"`. -/
theorem run_prompt_nonempty_witness :
    commitCmd.Run (World.answering [("error", GoValue.string "invalid api key")]) =
        ⟨(getAPIKey (World.answering [("error", GoValue.string "invalid api key")])).trace ++
          ((gitDiff (World.answering [("error", GoValue.string "invalid api key")])).trace ++
          ((getCommitMessages (World.answering [("error", GoValue.string "invalid api key")])
              (some "+ line") "sk-env").trace ++
            [Event.println "An error occurred while getting commit messages."])),
          Outcome.returned ()⟩ ∧
      promptCalls (commitCmd.Run
        (World.answering [("error", GoValue.string "invalid api key")])).trace = [] ∧
      commitCalls (commitCmd.Run
        (World.answering [("error", GoValue.string "invalid api key")])).trace = [] :=
  (run_prompt_nonempty (World.answering [("error", GoValue.string "invalid api key")])).2.1
    "sk-env" "+ line" rfl (by decide) rfl rfl

/-- Without the premise of C9: were the staged-diff command to report no
error and hand back the nil slice, the flow would return after the command
without printing anything. -/
theorem run_silent_on_nil_output (w : World) (key : String)
    (hA : (getAPIKey w).outcome = Outcome.returned key) (hk : key ≠ "")
    (herr : (w.combinedOutput "git" ["diff", "--staged"]).err = none)
    (hout : (w.combinedOutput "git" ["diff", "--staged"]).output = none) :
    commitCmd.Run w =
      ⟨(getAPIKey w).trace ++ [Event.exec "git" ["diff", "--staged"]], Outcome.returned ()⟩ := by
  have hD : (gitDiff w).outcome = Outcome.returned none := by
    rw [gitDiff_eq, herr, hout]
  rw [run_noDiff w key hA hk hD, gitDiff_eq, herr]

end LazyCommit
